import Mathlib

/-!
Verification development for the drpc Discord rich-presence client
(single header `src/drpc/drpc.hpp`).  The C++ code is shallowly embedded:
pure functions become Lean functions, the stateful engine loop becomes an
explicit state-passing step function, machine integers become `Nat`/`Int`
with explicit `% 2^32` where overflow matters, and the platform pipe (an
external collaborator behind the `Pipe` virtual interface) is scripted by
explicit result/byte-stream parameters.
-/

namespace DiscordRichPresence

/-- Mirrors `enum class Result` of the source. -/
inductive Result where
| Ok
| PipeNotOpen
| OpenPipeFailed
| ReadPipeFailed
| WritePipeFailed
| HandshakeFailed
| SetActivityFailed
| UnknownError
| ReadPipeNoData
deriving DecidableEq, Repr

/-- Mirrors `enum class Event` of the source (lifecycle events). -/
inductive Event where
| Connected
| Disconnected
deriving DecidableEq, Repr

/-! ## JSON writer

Mirrors `JSON::JsonWriter`: an output string plus the stack of member
counts of the currently open objects (`current_object_sizes`).  The
`JsonValue` variant is embedded as `JVal`; the alternatives the repository
never constructs (float/double/bool and the string-keyed map) are omitted.
Note that the source writes string values verbatim between quotes - it
performs no escaping - and the embedding reproduces that. -/

structure JsonWriter where
  s : String
  sizes : List Nat
deriving Repr

def JsonWriter.init : JsonWriter := { s := "", sizes := [] }

def writeRaw (w : JsonWriter) (str : String) : JsonWriter :=
  { w with s := w.s ++ str }

def beginObject (w : JsonWriter) : JsonWriter :=
  { writeRaw w "\x7b" with sizes := 0 :: w.sizes }

def endObject (w : JsonWriter) : JsonWriter :=
  { writeRaw w "\x7d" with sizes := w.sizes.tail }

/-- The `JsonValue` variants actually used by the source. `ser` embeds a
`std::shared_ptr<JsonSerializable>` as the serialization action of the
pointed-to object. -/
inductive JVal where
| str (s : String)
| int (n : Int)
| nat (n : Nat)
| arr (xs : List JVal)
| ser (f : JsonWriter → JsonWriter)

mutual

/-- Mirrors `JsonValue::ToJson`. A string is written verbatim between
quotes (the source performs no JSON escaping); integers are written with
`std::to_string`. -/
def jvalToJson : JVal → JsonWriter → JsonWriter
| JVal.str s, w => writeRaw (writeRaw (writeRaw w "\"") s) "\""
| JVal.int n, w => writeRaw w (toString n)
| JVal.nat n, w => writeRaw w (toString n)
| JVal.ser f, w => f w
| JVal.arr xs, w => writeRaw (jvalArr xs (writeRaw w "[")) "]"

/-- The vector branch of `JsonValue::ToJson`: items separated by commas. -/
def jvalArr : List JVal → JsonWriter → JsonWriter
| [], w => w
| [x], w => jvalToJson x w
| x :: y :: rest, w => jvalArr (y :: rest) (writeRaw (jvalToJson x w) ",")

end

/-- Mirrors `JsonWriter::Put`: comma separator when the current object is
nonempty, then key, colon, value, then increment the member count. -/
def put (w : JsonWriter) (key : String) (v : JVal) : JsonWriter :=
  match w.sizes with
  | [] => w
  | n :: _ =>
    let w1 := if n > 0 then writeRaw w "," else w
    let w2 := writeRaw (jvalToJson (JVal.str key) w1) ":"
    let w3 := jvalToJson v w2
    match w3.sizes with
    | [] => w3
    | m :: r => { w3 with sizes := (m + 1) :: r }

/-- Mirrors `JsonWriter::PendMember`: comma separator when needed, then
key and colon; the member count is incremented before the caller writes
the value. -/
def pendMember (w : JsonWriter) (key : String) : JsonWriter :=
  match w.sizes with
  | [] => w
  | n :: rest =>
    let w1 := if n > 0 then writeRaw w "," else w
    let w2 := writeRaw (jvalToJson (JVal.str key) w1) ":"
    { w2 with sizes := (n + 1) :: rest }

/-! ## Activity value types (mirroring the `Activity Types` region) -/

/-- Mirrors `class Timestamps` (both fields default to `0`). -/
structure Timestamps where
  start : Int := 0
  stop : Int := 0
deriving DecidableEq, Repr

/-- Mirrors `Timestamps::ToJson` (`stop` embeds the C++ field `end`,
which is a reserved word in Lean). -/
def Timestamps.ToJson (t : Timestamps) (w : JsonWriter) : JsonWriter :=
  let w := beginObject w
  let w := if t.start > 0 then put w "start" (JVal.int t.start) else w
  let w := if t.stop > 0 then put w "end" (JVal.int t.stop) else w
  endObject w

/-- Mirrors `class Party`. -/
structure Party where
  id : String := ""
  current_size : Int := 0
  max_size : Int := 0
deriving DecidableEq, Repr

/-- Mirrors `Party::SetCurrentSize`; `none` models an `assert` failure
(the only check is `size >= 0`). -/
def Party.SetCurrentSize (p : Party) (size : Int) : Option Party :=
  if 0 ≤ size then some { p with current_size := size } else none

/-- Mirrors `Party::SetMaxSize`; the `assert` requires `size >= 0` and
`size >= current_size`. -/
def Party.SetMaxSize (p : Party) (size : Int) : Option Party :=
  if 0 ≤ size ∧ p.current_size ≤ size then some { p with max_size := size } else none

/-- Mirrors `Party::ToJson`. -/
def Party.ToJson (p : Party) (w : JsonWriter) : JsonWriter :=
  let w := beginObject w
  let w := if p.id.length > 0 then put w "id" (JVal.str p.id) else w
  let w :=
    if p.current_size ≠ 0 ∨ p.max_size ≠ 0 then
      put w "size" (JVal.arr [JVal.int p.current_size, JVal.int p.max_size])
    else w
  endObject w

/-- Mirrors `class Assets`. -/
structure Assets where
  large_image : String := ""
  large_text : String := ""
  small_image : String := ""
  small_text : String := ""
deriving DecidableEq, Repr

/-- Mirrors `Assets::ToJson`. -/
def Assets.ToJson (a : Assets) (w : JsonWriter) : JsonWriter :=
  let w := beginObject w
  let w := if a.large_image.length > 0 then put w "large_image" (JVal.str a.large_image) else w
  let w := if a.large_text.length > 0 then put w "large_text" (JVal.str a.large_text) else w
  let w := if a.small_image.length > 0 then put w "small_image" (JVal.str a.small_image) else w
  let w := if a.small_text.length > 0 then put w "small_text" (JVal.str a.small_text) else w
  endObject w

/-- Mirrors `class Button`. -/
structure Button where
  label : String := ""
  url : String := ""
deriving DecidableEq, Repr

/-- Mirrors `Button::SetLabel`; the `assert` requires `label.length() < 32`. -/
def Button.SetLabel (b : Button) (label : String) : Option Button :=
  if label.length < 32 then some { b with label := label } else none

/-- Mirrors `Button::SetUrl`; the `assert` requires `url.length() < 512`. -/
def Button.SetUrl (b : Button) (url : String) : Option Button :=
  if url.length < 512 then some { b with url := url } else none

/-- Mirrors the `Button(label, url)` constructor, which runs both setters. -/
def Button.construct (label url : String) : Option Button :=
  (Button.SetLabel {} label).bind (fun b => Button.SetUrl b url)

/-- Mirrors `Button::ToJson`. -/
def Button.ToJson (b : Button) (w : JsonWriter) : JsonWriter :=
  let w := beginObject w
  let w := put w "label" (JVal.str b.label)
  let w := put w "url" (JVal.str b.url)
  endObject w

/-- Mirrors `enum class ActivityType`. -/
inductive ActivityType where
| Playing
| Listening
| Watching
| Competing
deriving DecidableEq, Repr

/-- The numeric codes of `ActivityType` (`static_cast<int>`). -/
def ActivityType.toInt : ActivityType → Int
| ActivityType.Playing => 0
| ActivityType.Listening => 2
| ActivityType.Watching => 3
| ActivityType.Competing => 5

/-- Mirrors `class Activity` with the default member values of the source
(`timestamps` and `assets` always present, `party` null by default). -/
structure Activity where
  client_id : Nat := 0
  name : String := ""
  type : ActivityType := ActivityType.Playing
  details : String := ""
  state : String := ""
  timestamps : Timestamps := {}
  party : Option Party := none
  assets : Assets := {}
  buttons : List Button := []
deriving DecidableEq, Repr

/-- Mirrors `Activity::ToJson`. -/
def Activity.ToJson (a : Activity) (w : JsonWriter) : JsonWriter :=
  let w := beginObject w
  let w := if a.name.length > 0 then put w "name" (JVal.str a.name) else w
  let w := if a.client_id ≠ 0 then put w "client_id" (JVal.nat a.client_id) else w
  let w := put w "type" (JVal.int a.type.toInt)
  let w := if a.details.length > 0 then put w "details" (JVal.str a.details) else w
  let w := if a.state.length > 0 then put w "state" (JVal.str a.state) else w
  let w := put w "timestamps" (JVal.ser a.timestamps.ToJson)
  let w :=
    match a.party with
    | some p => put w "party" (JVal.ser p.ToJson)
    | none => w
  let w := put w "assets" (JVal.ser a.assets.ToJson)
  let jbuttons := a.buttons.map (fun b => JVal.ser b.ToJson)
  let w := if jbuttons.length > 0 then put w "buttons" (JVal.arr jbuttons) else w
  endObject w

/-- Serialization of an activity to its wire text, starting from a fresh
writer (as `writer.Write(activity)` on an empty writer would produce). -/
def serializeActivity (a : Activity) : String :=
  (a.ToJson JsonWriter.init).s

/-! ## UUID generation (`UUID::GenerateUUIDv4`)

The source draws uniform values in `0..15` from a process-global mt19937
stream.  The embedding scopes that stream as an explicit digit supply
`d : Nat → Fin 16` consumed sequentially. -/

/-- Mirrors the `get_digit` lambda: values below ten map to `'0'..'9'`,
the rest to `'a'..'f'`. -/
def getDigit (v : Fin 16) : Char :=
  if v.val < 10 then Char.ofNat ('0'.toNat + v.val) else Char.ofNat ('a'.toNat + (v.val - 10))

/-- A run of `n` hex digits drawn from the supply starting at position
`start` (one `for` loop of the source). -/
def hexRun (d : Nat → Fin 16) (start : Nat) : Nat → List Char
| 0 => []
| n + 1 => getDigit (d start) :: hexRun d (start + 1) n

/-- The character sequence `GenerateUUIDv4` builds: 8 digits, a hyphen,
4 digits, the literal "-4" (version marker), 3 digits, a hyphen, 4
digits, a hyphen and 12 digits, consuming 31 supply positions in order. -/
def uuidChars (d : Nat → Fin 16) : List Char :=
  hexRun d 0 8 ++ ['-'] ++ hexRun d 8 4 ++ ['-', '4'] ++ hexRun d 12 3
    ++ ['-'] ++ hexRun d 15 4 ++ ['-'] ++ hexRun d 19 12

/-- Mirrors `UUID::GenerateUUIDv4`. -/
def GenerateUUIDv4 (d : Nat → Fin 16) : String :=
  String.mk (uuidChars d)

/-! ## Nonce extraction (the `nonce_re` regex of `WindowsPipe::Read`)

The source extracts the correlation token with
`std::regex_search(message, match, R"(\"nonce\":\"([a-z-A-Z0-9\-]+)\")")`.
The character class parses as lowercase letters, uppercase letters, digits
and the hyphen.  Since `"` is not in the class, the greedy capture at a
match position is exactly the maximal run of class characters followed by
a closing quote, and `regex_search` takes the leftmost match position. -/

/-- The character class `[a-z-A-Z0-9\-]` of `nonce_re`. -/
def isNonceChar (c : Char) : Bool :=
  ('a' ≤ c && c ≤ 'z') || ('A' ≤ c && c ≤ 'Z') || ('0' ≤ c && c ≤ '9') || (c == '-')

/-- The literal part of `nonce_re` preceding the capture group. -/
def noncePattern : List Char := "\"nonce\":\"".data

/-- Attempt to match `nonce_re` with the match starting at the head of
`l`: the literal prefix, then a maximal nonempty run of class characters,
then a closing quote. -/
def matchNonceAt (l : List Char) : Option (List Char) :=
  if l.take 9 = noncePattern then
    let rest := l.drop 9
    let tok := rest.takeWhile isNonceChar
    if tok.length > 0 ∧ (rest.drop tok.length).head? = some '"' then some tok else none
  else none

/-- Leftmost search, as `std::regex_search` performs. -/
def searchNonce : List Char → Option (List Char)
| [] => none
| c :: rest =>
  match matchNonceAt (c :: rest) with
  | some tok => some tok
  | none => searchNonce rest

/-- The nonce a received payload yields (empty capture when the pattern
does not occur, mirroring `message->nonce` staying empty). -/
def extractNonce (s : String) : Option String :=
  (searchNonce s.data).map (fun l => String.mk l)

/-! ## Frame codec and byte-level pipe reads

`WindowsPipe::Write` lays out a frame as 4 little-endian opCode bytes,
4 little-endian length bytes (`static_cast<uint32_t>(message.length())`),
then the payload bytes.  `WindowsPipe::Read`/`ReadBytes` consume a byte
stream segment-wise; in peek mode each segment read first asks
`PeekNamedPipe` for the number of available bytes and yields the
distinguished `ReadPipeNoData` outcome when none are available.
`ReadFile` on a byte-mode pipe with data available returns at most the
available bytes; a short count is `ReadPipeFailed` (`bytes_read != size`).
A blocking read on an empty stream (non-peek mode only) is outside the
model; the modelled non-peek scenarios always present the full frame. -/

/-- Little-endian bytes of a `uint32_t` (`std::memcpy` of the value on a
little-endian target); only the low 32 bits of `n` are represented. -/
def toLE32 (n : Nat) : List Nat :=
  [n % 256, n / 256 % 256, n / 65536 % 256, n / 16777216 % 256]

/-- `std::bit_cast<uint32_t>` of 4 little-endian bytes. -/
def fromLE32 : List Nat → Nat
| [b0, b1, b2, b3] => b0 + 256 * b1 + 65536 * b2 + 16777216 * b3
| _ => 0

/-- Mirrors `WindowsPipe::Write`'s frame layout. -/
def encodeFrame (op : Nat) (payload : List Nat) : List Nat :=
  toLE32 op ++ toLE32 payload.length ++ payload

/-- One `ReadFile` of exactly `n` bytes: returns `(result, bytes read,
remaining stream)`.  On a short stream the available bytes are consumed
and the read fails. -/
def readFileN (n : Nat) (stream : List Nat) : Result × List Nat × List Nat :=
  if n ≤ stream.length then (Result.Ok, stream.take n, stream.drop n)
  else (Result.ReadPipeFailed, [], [])

/-- Mirrors `WindowsPipe::ReadBytes` (and the inlined payload read of
`Read`, which has the same shape): in peek mode, a `PeekNamedPipe` query
reporting zero available bytes yields `ReadPipeNoData` without consuming
anything; otherwise the segment is read with `ReadFile`. -/
def readBytes (n : Nat) (peek : Bool) (stream : List Nat) : Result × List Nat × List Nat :=
  if peek then
    if stream.length > 0 then readFileN n stream
    else (Result.ReadPipeNoData, [], stream)
  else readFileN n stream

/-- Mirrors `WindowsPipe::Read` at the byte level: 4 opCode bytes, 4
length bytes, then exactly `length` payload bytes, each segment through
`readBytes`.  Returns `(result, opCode, payload, remaining stream)`; the
nonce extraction the source then performs on the decoded text is modelled
by `extractNonce`. -/
def pipeRead (peek : Bool) (stream : List Nat) : Result × Nat × List Nat × List Nat :=
  match readBytes 4 peek stream with
  | (Result.Ok, opBytes, s1) =>
    match readBytes 4 peek s1 with
    | (Result.Ok, lenBytes, s2) =>
      match readBytes (fromLE32 lenBytes) peek s2 with
      | (Result.Ok, payload, s3) => (Result.Ok, fromLE32 opBytes, payload, s3)
      | (r, _, s3) => (r, fromLE32 opBytes, [], s3)
    | (r, _, s2) => (r, 0, [], s2)
  | (r, _, s1) => (r, 0, [], s1)

/-! ## Wire payload builders (`Client::Connect`, `Client::UpdateActivity`,
`Client::ClearActivity`) -/

/-- The handshake payload written by `Connect`: the client id is rendered
through `std::to_string`, i.e. as a JSON string. -/
def handshakePayload (client_id : Nat) : String :=
  let w := beginObject JsonWriter.init
  let w := put w "v" (JVal.int 1)
  let w := put w "client_id" (JVal.str (toString client_id))
  (endObject w).s

/-- The command payload built by `UpdateActivity`. -/
def setActivityPayload (pid : Int) (a : Activity) (nonce : String) : String :=
  let w := beginObject JsonWriter.init
  let w := put w "cmd" (JVal.str "SET_ACTIVITY")
  let w := pendMember w "args"
  let w := beginObject w
  let w := put w "pid" (JVal.int pid)
  let w := put w "activity" (JVal.ser a.ToJson)
  let w := endObject w
  let w := put w "nonce" (JVal.str nonce)
  (endObject w).s

/-- The command payload built by `ClearActivity` (an explicit empty
`activity` object). -/
def clearActivityPayload (pid : Int) (nonce : String) : String :=
  let w := beginObject JsonWriter.init
  let w := put w "cmd" (JVal.str "SET_ACTIVITY")
  let w := pendMember w "args"
  let w := beginObject w
  let w := put w "pid" (JVal.int pid)
  let w := pendMember w "activity"
  let w := beginObject w
  let w := endObject w
  let w := endObject w
  let w := put w "nonce" (JVal.str nonce)
  (endObject w).s

/-! ## The protocol engine (`class Client`)

The engine state carries the outbound queue, the pending-call table and
the retained activity snapshot.  The `std::map<std::string, callback>`
is embedded as the list of its keys: a continuation is identified by the
nonce it is registered under, and invoking it is recorded as a fire event
`(nonce, result)` in the iteration output.  The process-global random
token stream is an explicit supply `supply : Nat → String` with `ctr` the
next unconsumed position (`UUID::GenerateUUIDv4` composed with the digit
stream).  The platform pipe, an external collaborator behind the virtual
`Pipe` interface, is scripted per iteration.  Log callbacks have no
observable effect on the engine state and are not recorded. -/

/-- Mirrors `struct IpcMessage` (value-initialized fields by default, as
`IpcMessage msg;` in `Run` produces). -/
structure IpcMessage where
  op_code : Nat := 0
  message : String := ""
  nonce : String := ""
deriving DecidableEq, Repr

/-- Mirrors `struct ClientSettings`. -/
structure ClientSettings where
  auto_reconnect : Bool := true
  reconnect_timeout_ms : Nat := 5000
deriving DecidableEq, Repr

/-- The mutable state of `class Client` relevant to the engine. -/
structure ClientState where
  settings : ClientSettings := {}
  client_id : Nat := 0
  pid : Int := 0
  outgoing_messages : List IpcMessage := []
  callbacks : List String := []
  last_activity : Option Activity := none
  ctr : Nat := 0
deriving Repr

/-- Mirrors `callbacks[nonce] = callback`: `operator[]` adds the key when
absent; on a (colliding) existing key only the stored continuation is
overwritten, the key set is unchanged. -/
def registerCallback (cbs : List String) (nonce : String) : List String :=
  if nonce ∈ cbs then cbs else nonce :: cbs

/-- Mirrors `Client::UpdateActivity`: generate a fresh nonce, build the
payload, append `(opCode 1, payload, nonce)` to the queue, register the
continuation and retain the activity snapshot. -/
def UpdateActivity (supply : Nat → String) (st : ClientState) (activity : Activity) : ClientState :=
  let nonce := supply st.ctr
  { st with
    outgoing_messages := st.outgoing_messages
      ++ [{ op_code := 1, message := setActivityPayload st.pid activity nonce, nonce := nonce }],
    callbacks := registerCallback st.callbacks nonce,
    last_activity := some activity,
    ctr := st.ctr + 1 }

/-- Mirrors `Client::ClearActivity`: like `UpdateActivity` with an empty
activity object, and the snapshot is cleared. -/
def ClearActivity (supply : Nat → String) (st : ClientState) : ClientState :=
  let nonce := supply st.ctr
  { st with
    outgoing_messages := st.outgoing_messages
      ++ [{ op_code := 1, message := clearActivityPayload st.pid nonce, nonce := nonce }],
    callbacks := registerCallback st.callbacks nonce,
    last_activity := none,
    ctr := st.ctr + 1 }

/-- A public submission call. -/
inductive Submission where
| set (a : Activity)
| clear

def submit (supply : Nat → String) (st : ClientState) : Submission → ClientState
| Submission.set a => UpdateActivity supply st a
| Submission.clear => ClearActivity supply st

def submitAll (supply : Nat → String) (subs : List Submission) (st : ClientState) : ClientState :=
  subs.foldl (submit supply) st

/-- The scripted transport responses one `Connect` call observes. -/
structure ConnectScript where
  openResult : Result := Result.Ok
  writeResult : Result := Result.Ok
  readResult : Result := Result.Ok
  readMsg : IpcMessage := {}
deriving DecidableEq, Repr

/-- What one `Connect` call produces: its return value, the lifecycle
events raised and the frames written. -/
structure ConnectOut where
  result : Result
  events : List Event
  written : List (Nat × String)
deriving DecidableEq, Repr

/-- Mirrors `Client::Connect`: open the pipe, write the handshake frame
(opCode 0), block for one inbound frame; success is the reply's opCode
being 1, in which case a `Connected` event is raised; a successful read
with another opCode returns `HandshakeFailed`; open/write/read failures
return that failure directly. -/
def Connect (client_id : Nat) (p : ConnectScript) : ConnectOut :=
  if p.openResult ≠ Result.Ok then { result := p.openResult, events := [], written := [] }
  else
    let frame := (0, handshakePayload client_id)
    if p.writeResult ≠ Result.Ok then { result := p.writeResult, events := [], written := [frame] }
    else if p.readResult ≠ Result.Ok then { result := p.readResult, events := [], written := [frame] }
    else if p.readMsg.op_code = 1 then
      { result := Result.Ok, events := [Event.Connected], written := [frame] }
    else { result := Result.HandshakeFailed, events := [], written := [frame] }

/-- The queue-draining `while` of `Client::Run`: pop each entry in FIFO
order and attempt its write (`w i` scripts the result of the `i`-th write
of this pass).  Returns the pending-call table after the pass, the write
attempts in order, and the continuations fired (a failed write fires and
removes the entry's pending call when present, then draining continues). -/
def drainGo (w : Nat → Result) (i : Nat) (cbs : List String) :
    List IpcMessage → List String × List IpcMessage × List (String × Result)
| [] => (cbs, [], [])
| m :: rest =>
  let r := w i
  if r = Result.Ok then
    let out := drainGo w (i + 1) cbs rest
    (out.1, m :: out.2.1, out.2.2)
  else if m.nonce ∈ cbs then
    let out := drainGo w (i + 1) (cbs.erase m.nonce) rest
    (out.1, m :: out.2.1, (m.nonce, r) :: out.2.2)
  else
    let out := drainGo w (i + 1) cbs rest
    (out.1, m :: out.2.1, out.2.2)

/-- The callback dispatch at the bottom of the loop body: a message whose
nonce is a pending key fires that continuation with the read outcome and
erases the entry; otherwise nothing happens. -/
def dispatch (cbs : List String) (r : Result) (m : IpcMessage) :
    List String × List (String × Result) :=
  if m.nonce ∈ cbs then (cbs.erase m.nonce, [(m.nonce, r)]) else (cbs, [])

/-- The outcome of the one peek read an iteration attempts. -/
inductive ReadScript where
| ok (m : IpcMessage)
| err (r : Result) (openAfter : Bool)
deriving Repr

/-- The scripted transport behaviour one loop iteration observes:
`isOpen` is the `pipe->IsOpen()` test at the top, `connect` scripts a
`Connect` attempt (used only when the pipe is closed), `writeRes` the
successive queued writes, `read` the peek read (`openAfter` is the
`pipe->IsOpen()` re-check in the no-data branch). -/
structure IterScript where
  isOpen : Bool := true
  connect : ConnectScript := {}
  writeRes : Nat → Result := fun _ => Result.Ok
  read : ReadScript := ReadScript.err Result.ReadPipeNoData true

/-- What one iteration of `Client::Run` produces. -/
structure IterOut where
  st : ClientState
  fires : List (String × Result)
  events : List Event

/-- One iteration of the `while (true)` loop of `Client::Run`.  Closed
pipe: with auto-reconnect, attempt `Connect` and on success resubmit the
retained snapshot (if any); the iteration then restarts.  Open pipe:
drain the queue, attempt one peek read, then dispatch.  A no-data read
with the pipe still open skips dispatch (`continue`); a `ReadPipeFailed`
closes the pipe and raises `Disconnected`; any failure path reaches
dispatch with the default message (whose nonce is empty), a successful
read with the received message. -/
def runIter (supply : Nat → String) (sc : IterScript) (st : ClientState) : IterOut :=
  if sc.isOpen = false then
    if st.settings.auto_reconnect then
      let c := Connect st.client_id sc.connect
      if c.result = Result.Ok then
        match st.last_activity with
        | some a => { st := UpdateActivity supply st a, fires := [], events := c.events }
        | none => { st := st, fires := [], events := c.events }
      else { st := st, fires := [], events := c.events }
    else { st := st, fires := [], events := [] }
  else
    let d := drainGo sc.writeRes 0 st.callbacks st.outgoing_messages
    let st1 := { st with outgoing_messages := [], callbacks := d.1 }
    match sc.read with
    | ReadScript.err r openAfter =>
      if r = Result.ReadPipeNoData ∧ openAfter = true then
        { st := st1, fires := d.2.2, events := [] }
      else
        let evs := if r = Result.ReadPipeFailed then [Event.Disconnected] else []
        let dd := dispatch st1.callbacks r {}
        { st := { st1 with callbacks := dd.1 }, fires := d.2.2 ++ dd.2, events := evs }
    | ReadScript.ok m =>
      let dd := dispatch st1.callbacks Result.Ok m
      { st := { st1 with callbacks := dd.1 }, fires := d.2.2 ++ dd.2, events := [] }

/-- A finite run of loop iterations, accumulating the continuation fires
and lifecycle events. -/
def runLoop (supply : Nat → String) :
    List IterScript → ClientState → ClientState × List (String × Result) × List Event
| [], st => (st, [], [])
| sc :: rest, st =>
  let o := runIter supply sc st
  let out := runLoop supply rest o.st
  (out.1, o.fires ++ out.2.1, o.events ++ out.2.2)

/-- The token stands at a supply position below `bound`. -/
def FromSupply (supply : Nat → String) (bound : Nat) (s : String) : Prop :=
  ∃ i, i < bound ∧ supply i = s

/-- Well-formedness of the engine state relative to the token supply: the
pending-call keys are pairwise distinct and were drawn from the supply at
positions below `ctr`.  Every execution that generates its nonces through
the shared supply starts and stays in such a state. -/
def WFState (supply : Nat → String) (st : ClientState) : Prop :=
  st.callbacks.Nodup ∧ ∀ s ∈ st.callbacks, FromSupply supply st.ctr s

/-! ## Spec-side JSON escaping (for the serialization-contract claim) -/

/-- Lowercase hex digit of a value below 16. -/
def hexDigitChar (n : Nat) : Char :=
  if n < 10 then Char.ofNat ('0'.toNat + n) else Char.ofNat ('a'.toNat + (n - 10))

/-- Modelled from the spec: Section 4.5 requires string values "escaped
per standard JSON rules".  The source has no escaping routine, so the
standard escaping is defined here from the spec's words for comparison:
quote and backslash get a backslash prefix, the named control characters
use their short escapes, other control characters the `\u00XX` form. -/
def specEscapeChar (c : Char) : List Char :=
  if c = '"' then ['\\', '"']
  else if c = '\\' then ['\\', '\\']
  else if c = '\n' then ['\\', 'n']
  else if c = '\t' then ['\\', 't']
  else if c = '\r' then ['\\', 'r']
  else if c.toNat < 32 then
    ['\\', 'u', '0', '0', hexDigitChar (c.toNat / 16), hexDigitChar (c.toNat % 16)]
  else [c]

/-- Modelled from the spec: standard JSON escaping of a whole string. -/
def specEscapeString (s : String) : String :=
  String.mk ((s.data.map specEscapeChar).flatten)

/-! ## Helper lemmas -/

theorem stringDataEq (a b : String) (h : a.data = b.data) : a = b := by
  cases a
  cases b
  exact congrArg String.mk (by simpa using h)

theorem readBytes_false (n : Nat) (s : List Nat) : readBytes n false s = readFileN n s := rfl

theorem readFileN_prefix (n : Nat) (l rest : List Nat) (h : l.length = n) :
    readFileN n (l ++ rest) = (Result.Ok, l, rest) := by
  subst h
  unfold readFileN
  rw [if_pos (by simp)]
  rw [List.take_left, List.drop_left]

theorem fromLE32_toLE32 (n : Nat) (h : n < 4294967296) : fromLE32 (toLE32 n) = n := by
  simp only [fromLE32, toLE32]
  omega

theorem takeWhileAppendAll (p : Char → Bool) (l1 l2 : List Char) (h : ∀ x ∈ l1, p x = true) :
    (l1 ++ l2).takeWhile p = l1 ++ l2.takeWhile p := by
  induction l1 with
  | nil => simp
  | cons a t ih =>
    simp only [List.cons_append, List.takeWhile_cons, h a (by simp)]
    rw [ih (fun x hx => h x (by simp [hx]))]
    simp

theorem matchNonceAtExact (t : List Char) (h1 : t ≠ [])
    (h2 : ∀ c ∈ t, isNonceChar c = true) :
    matchNonceAt (noncePattern ++ (t ++ ['"'])) = some t := by
  unfold matchNonceAt
  have htake : (noncePattern ++ (t ++ ['"'])).take 9 = noncePattern := by
    have h9 : (9 : Nat) = noncePattern.length := rfl
    rw [h9, List.take_left]
  have hdrop : (noncePattern ++ (t ++ ['"'])).drop 9 = t ++ ['"'] := by
    have h9 : (9 : Nat) = noncePattern.length := rfl
    rw [h9, List.drop_left]
  rw [if_pos htake]
  simp only [hdrop]
  have htw : (t ++ ['"']).takeWhile isNonceChar = t := by
    rw [takeWhileAppendAll isNonceChar t ['"'] h2]
    simp [List.takeWhile_cons, isNonceChar]
  simp only [htw]
  rw [if_pos]
  constructor
  · exact List.length_pos.mpr h1
  · rw [List.drop_left t ['"']]
    rfl

theorem searchNonceExact (t : List Char) (h1 : t ≠ [])
    (h2 : ∀ c ∈ t, isNonceChar c = true) :
    searchNonce (noncePattern ++ (t ++ ['"'])) = some t := by
  have hm : matchNonceAt ('"' :: ("nonce\":\"".data ++ (t ++ ['"']))) = some t :=
    matchNonceAtExact t h1 h2
  rw [show noncePattern ++ (t ++ ['"']) = '"' :: ("nonce\":\"".data ++ (t ++ ['"'])) from rfl]
  rw [searchNonce, hm]

theorem hexRunMem (d : Nat → Fin 16) (c : Char) :
    ∀ n s, c ∈ hexRun d s n → ∃ v, c = getDigit v := by
  intro n
  induction n with
  | zero =>
    intro s h
    simp [hexRun] at h
  | succ k ih =>
    intro s h
    simp only [hexRun, List.mem_cons] at h
    rcases h with h | h
    · exact ⟨d s, h⟩
    · exact ih (s + 1) h

theorem getDigitClass :
    ∀ v : Fin 16, ('0' ≤ getDigit v ∧ getDigit v ≤ '9') ∨ ('a' ≤ getDigit v ∧ getDigit v ≤ 'f') := by
  decide

theorem uuidCharsClass (d : Nat → Fin 16) :
    ∀ c ∈ uuidChars d, ('0' ≤ c ∧ c ≤ '9') ∨ ('a' ≤ c ∧ c ≤ 'f') ∨ c = '-' := by
  intro c hc
  have hdig : ∀ n s, c ∈ hexRun d s n →
      (('0' ≤ c ∧ c ≤ '9') ∨ ('a' ≤ c ∧ c ≤ 'f') ∨ c = '-') := by
    intro n s hm
    obtain ⟨v, rfl⟩ := hexRunMem d c n s hm
    rcases getDigitClass v with hv | hv
    · exact Or.inl hv
    · exact Or.inr (Or.inl hv)
  simp only [uuidChars, List.mem_append] at hc
  rcases hc with ((((((((h | h) | h) | h) | h) | h) | h) | h) | h)
  · exact hdig _ _ h
  · simp only [List.mem_singleton] at h
    subst h
    exact Or.inr (Or.inr rfl)
  · exact hdig _ _ h
  · simp only [List.mem_cons, List.mem_singleton, List.not_mem_nil, or_false] at h
    rcases h with rfl | rfl
    · exact Or.inr (Or.inr rfl)
    · exact Or.inl (by decide)
  · exact hdig _ _ h
  · simp only [List.mem_singleton] at h
    subst h
    exact Or.inr (Or.inr rfl)
  · exact hdig _ _ h
  · simp only [List.mem_singleton] at h
    subst h
    exact Or.inr (Or.inr rfl)
  · exact hdig _ _ h

theorem isNonceCharOfClass (c : Char)
    (h : ('0' ≤ c ∧ c ≤ '9') ∨ ('a' ≤ c ∧ c ≤ 'f') ∨ c = '-') : isNonceChar c = true := by
  rcases h with ⟨h1, h2⟩ | ⟨h1, h2⟩ | rfl
  · simp [isNonceChar, h1, h2]
  · have h3 : c ≤ 'z' := le_trans h2 (by decide)
    simp [isNonceChar, h1, h3]
  · decide

theorem specEscapeCharId (c : Char) (h1 : c ≠ '"') (h2 : c ≠ '\\') (h3 : 32 ≤ c.toNat) :
    specEscapeChar c = [c] := by
  have hn : c ≠ '\n' := by
    intro h
    subst h
    revert h3
    decide
  have ht : c ≠ '\t' := by
    intro h
    subst h
    revert h3
    decide
  have hr : c ≠ '\r' := by
    intro h
    subst h
    revert h3
    decide
  unfold specEscapeChar
  rw [if_neg h1, if_neg h2, if_neg hn, if_neg ht, if_neg hr, if_neg (by omega)]

theorem specEscapeStringId (s : String) (h : ∀ c ∈ s.data, c ≠ '"' ∧ c ≠ '\\' ∧ 32 ≤ c.toNat) :
    specEscapeString s = s := by
  apply stringDataEq
  show (s.data.map specEscapeChar).flatten = s.data
  suffices hgen : ∀ l : List Char, (∀ c ∈ l, c ≠ '"' ∧ c ≠ '\\' ∧ 32 ≤ c.toNat) →
      (l.map specEscapeChar).flatten = l from hgen s.data h
  intro l hl
  induction l with
  | nil => simp
  | cons a t ih =>
    obtain ⟨ha1, ha2, ha3⟩ := hl a (by simp)
    simp [specEscapeCharId a ha1 ha2 ha3, ih (fun c hc => hl c (by simp [hc]))]

theorem drainGoWrites (w : Nat → Result) (q : List IpcMessage) :
    ∀ i cbs, (drainGo w i cbs q).2.1 = q := by
  induction q with
  | nil => intro i cbs; rfl
  | cons m rest ih =>
    intro i cbs
    unfold drainGo
    by_cases hr : w i = Result.Ok
    · simp [hr, ih]
    · by_cases hm : m.nonce ∈ cbs <;> simp [hr, hm, ih]

theorem drainGoCbs (w : Nat → Result) (q : List IpcMessage) :
    ∀ i cbs, cbs.Nodup →
      (drainGo w i cbs q).1.Nodup ∧ (∀ s ∈ (drainGo w i cbs q).1, s ∈ cbs) := by
  induction q with
  | nil => intro i cbs h; exact ⟨h, fun s hs => hs⟩
  | cons m rest ih =>
    intro i cbs h
    unfold drainGo
    by_cases hr : w i = Result.Ok
    · simpa [hr] using ih (i + 1) cbs h
    · by_cases hm : m.nonce ∈ cbs
      · have he := ih (i + 1) (cbs.erase m.nonce) (h.erase m.nonce)
        refine ⟨by simpa [hr, hm] using he.1, ?_⟩
        intro s hs
        simp only [hr, hm, if_false, if_true, ite_false, ite_true] at hs
        exact List.mem_of_mem_erase (he.2 s hs)
      · simpa [hr, hm] using ih (i + 1) cbs h

theorem drainGoFires (w : Nat → Result) (q : List IpcMessage) :
    ∀ i cbs, cbs.Nodup →
      ((drainGo w i cbs q).2.2.map Prod.fst).Nodup
      ∧ (∀ s ∈ (drainGo w i cbs q).2.2.map Prod.fst, s ∈ cbs ∧ s ∉ (drainGo w i cbs q).1) := by
  induction q with
  | nil =>
    intro i cbs h
    exact ⟨List.nodup_nil, by simp [drainGo]⟩
  | cons m rest ih =>
    intro i cbs h
    unfold drainGo
    by_cases hr : w i = Result.Ok
    · simpa [hr] using ih (i + 1) cbs h
    · by_cases hm : m.nonce ∈ cbs
      · have hnd := h.erase m.nonce
        have he := ih (i + 1) (cbs.erase m.nonce) hnd
        have hsub := (drainGoCbs w rest (i + 1) (cbs.erase m.nonce) hnd).2
        have hnotm : m.nonce ∉ cbs.erase m.nonce := fun hx => (h.mem_erase_iff.mp hx).1 rfl
        simp only [hr, hm, if_false, if_true, ite_false, ite_true, List.map_cons]
        constructor
        · refine List.nodup_cons.mpr ⟨?_, he.1⟩
          intro hmem
          exact hnotm (he.2 m.nonce hmem).1
        · intro s hs
          rcases List.mem_cons.mp hs with rfl | hs2
          · refine ⟨hm, ?_⟩
            intro hfin
            exact hnotm (hsub _ hfin)
          · obtain ⟨h1, h2⟩ := he.2 s hs2
            exact ⟨List.mem_of_mem_erase h1, h2⟩
      · simpa [hr, hm] using ih (i + 1) cbs h

theorem drainGoFailFires (w : Nat → Result) (q : List IpcMessage) :
    ∀ i cbs, (q.map IpcMessage.nonce).Nodup → cbs.Nodup → (∀ m ∈ q, m.nonce ∈ cbs) →
      ∀ j, (hj : j < q.length) → w (i + j) ≠ Result.Ok →
        (q[j].nonce, w (i + j)) ∈ (drainGo w i cbs q).2.2
        ∧ q[j].nonce ∉ (drainGo w i cbs q).1 := by
  induction q with
  | nil =>
    intro i cbs _ _ _ j hj
    exact absurd hj (by simp)
  | cons m rest ih =>
    intro i cbs hqn hnd hmem j hj hw
    unfold drainGo
    match j with
    | 0 =>
      simp only [Nat.add_zero] at hw
      have hm : m.nonce ∈ cbs := hmem m (by simp)
      have hnotm : m.nonce ∉ cbs.erase m.nonce := fun hx => (hnd.mem_erase_iff.mp hx).1 rfl
      have hsub := (drainGoCbs w rest (i + 1) (cbs.erase m.nonce) (hnd.erase m.nonce)).2
      simp only [hw, hm, if_false, if_true, ite_false, ite_true, List.getElem_cons_zero,
        Nat.add_zero]
      constructor
      · exact List.mem_cons_self _ _
      · intro hfin
        exact hnotm (hsub _ hfin)
    | k + 1 =>
      have hjk : k < rest.length := by simpa using hj
      have hshift : i + (k + 1) = (i + 1) + k := by omega
      have hqn2 : (rest.map IpcMessage.nonce).Nodup := (List.nodup_cons.mp hqn).2
      have hmne : ∀ m2 ∈ rest, m2.nonce ≠ m.nonce := by
        intro m2 hm2 heq
        have : m.nonce ∈ rest.map IpcMessage.nonce := heq ▸ List.mem_map_of_mem _ hm2
        exact (List.nodup_cons.mp hqn).1 this
      rw [hshift] at hw ⊢
      simp only [List.getElem_cons_succ]
      by_cases hr : w i = Result.Ok
      · simp only [hr, if_true, ite_true]
        exact ih (i + 1) cbs hqn2 hnd (fun m2 hm2 => hmem m2 (by simp [hm2])) k hjk hw
      · by_cases hm : m.nonce ∈ cbs
        · have hnd2 := hnd.erase m.nonce
          have hmem2 : ∀ m2 ∈ rest, m2.nonce ∈ cbs.erase m.nonce := by
            intro m2 hm2
            exact (hnd.mem_erase_iff.mpr ⟨hmne m2 hm2, hmem m2 (by simp [hm2])⟩)
          have := ih (i + 1) (cbs.erase m.nonce) hqn2 hnd2 hmem2 k hjk hw
          simp only [hr, hm, if_false, if_true, ite_false, ite_true]
          exact ⟨List.mem_cons_of_mem _ this.1, this.2⟩
        · simp only [hr, hm, if_false, ite_false]
          exact ih (i + 1) cbs hqn2 hnd (fun m2 hm2 => hmem m2 (by simp [hm2])) k hjk hw

theorem dispatchSpec (cbs : List String) (r : Result) (m : IpcMessage) (hn : cbs.Nodup) :
    (dispatch cbs r m).1.Nodup
    ∧ (∀ s ∈ (dispatch cbs r m).1, s ∈ cbs)
    ∧ ((dispatch cbs r m).2.map Prod.fst).Nodup
    ∧ (∀ s ∈ (dispatch cbs r m).2.map Prod.fst, s ∈ cbs ∧ s ∉ (dispatch cbs r m).1) := by
  unfold dispatch
  by_cases hm : m.nonce ∈ cbs
  · simp only [hm, if_true, ite_true]
    refine ⟨hn.erase _, fun s hs => List.mem_of_mem_erase hs, by simp, ?_⟩
    intro s hs
    simp only [List.map_cons, List.map_nil, List.mem_singleton] at hs
    subst hs
    exact ⟨hm, fun hx => (hn.mem_erase_iff.mp hx).1 rfl⟩
  · simp [hm, hn]

theorem freshNotMem (supply : Nat → String) (hinj : ∀ i j, supply i = supply j → i = j)
    (st : ClientState) (hwf : WFState supply st) : supply st.ctr ∉ st.callbacks := by
  intro hmem
  obtain ⟨i, hi, hie⟩ := hwf.2 _ hmem
  have := hinj i st.ctr hie
  omega

theorem drainDispatchSpec (w : Nat → Result) (q : List IpcMessage) (cbs : List String)
    (hn : cbs.Nodup) (r : Result) (m : IpcMessage) :
    (dispatch (drainGo w 0 cbs q).1 r m).1.Nodup
    ∧ (∀ s ∈ (dispatch (drainGo w 0 cbs q).1 r m).1, s ∈ cbs)
    ∧ (((drainGo w 0 cbs q).2.2 ++ (dispatch (drainGo w 0 cbs q).1 r m).2).map Prod.fst).Nodup
    ∧ (∀ s ∈ ((drainGo w 0 cbs q).2.2 ++ (dispatch (drainGo w 0 cbs q).1 r m).2).map Prod.fst,
        s ∈ cbs ∧ s ∉ (dispatch (drainGo w 0 cbs q).1 r m).1) := by
  have hdc := drainGoCbs w q 0 cbs hn
  have hdf := drainGoFires w q 0 cbs hn
  have hds := dispatchSpec (drainGo w 0 cbs q).1 r m hdc.1
  refine ⟨hds.1, fun s hs => hdc.2 s (hds.2.1 s hs), ?_, ?_⟩
  · rw [List.map_append]
    refine List.Nodup.append hdf.1 hds.2.2.1 ?_
    intro s hs1 hs2
    have h1 := hdf.2 s hs1
    have h2 := hds.2.2.2 s hs2
    exact h1.2 h2.1
  · intro s hs
    rw [List.map_append, List.mem_append] at hs
    rcases hs with hs | hs
    · obtain ⟨h1, h2⟩ := hdf.2 s hs
      refine ⟨h1, fun hfin => h2 (hds.2.1 s hfin)⟩
    · obtain ⟨h1, h2⟩ := hds.2.2.2 s hs
      exact ⟨hdc.2 s h1, h2⟩

theorem runIterSpec (supply : Nat → String) (hinj : ∀ i j, supply i = supply j → i = j)
    (sc : IterScript) (st : ClientState) (hwf : WFState supply st) :
    WFState supply (runIter supply sc st).st
    ∧ st.ctr ≤ (runIter supply sc st).st.ctr
    ∧ ((runIter supply sc st).fires.map Prod.fst).Nodup
    ∧ (∀ s ∈ (runIter supply sc st).fires.map Prod.fst,
        s ∈ st.callbacks ∧ s ∉ (runIter supply sc st).st.callbacks)
    ∧ (∀ s ∈ (runIter supply sc st).st.callbacks,
        s ∈ st.callbacks ∨ ∃ i, st.ctr ≤ i ∧ i < (runIter supply sc st).st.ctr ∧ supply i = s) := by
  unfold runIter
  by_cases ho : sc.isOpen = false
  · simp only [ho, if_true, ite_true]
    by_cases har : st.settings.auto_reconnect = true
    · simp only [har, if_true, ite_true]
      by_cases hcr : (Connect st.client_id sc.connect).result = Result.Ok
      · simp only [hcr, if_true, ite_true]
        cases hla : st.last_activity with
        | none =>
          exact ⟨hwf, le_refl _, by simp, by simp, fun s hs => Or.inl hs⟩
        | some a =>
          have hf : supply st.ctr ∉ st.callbacks := freshNotMem supply hinj st hwf
          have hreg : registerCallback st.callbacks (supply st.ctr)
              = supply st.ctr :: st.callbacks := by
            unfold registerCallback
            rw [if_neg hf]
          have hcb : (UpdateActivity supply st a).callbacks = supply st.ctr :: st.callbacks := by
            simp [UpdateActivity, hreg]
          have hctr : (UpdateActivity supply st a).ctr = st.ctr + 1 := rfl
          refine ⟨⟨?_, ?_⟩, ?_, by simp, by simp, ?_⟩
          · rw [hcb]
            exact List.nodup_cons.mpr ⟨hf, hwf.1⟩
          · intro s hs
            rw [hcb] at hs
            rw [hctr]
            rcases List.mem_cons.mp hs with rfl | hs2
            · exact ⟨st.ctr, by omega, rfl⟩
            · obtain ⟨i, hi, hie⟩ := hwf.2 s hs2
              exact ⟨i, by omega, hie⟩
          · rw [hctr]
            omega
          · intro s hs
            rw [hcb] at hs
            rw [hctr]
            rcases List.mem_cons.mp hs with rfl | hs2
            · exact Or.inr ⟨st.ctr, le_refl _, by omega, rfl⟩
            · exact Or.inl hs2
      · simp only [hcr, if_false, ite_false]
        exact ⟨hwf, le_refl _, by simp, by simp, fun s hs => Or.inl hs⟩
    · simp only [har, if_false, ite_false]
      exact ⟨hwf, le_refl _, by simp, by simp, fun s hs => Or.inl hs⟩
  · simp only [ho, if_false, ite_false]
    have hdc := drainGoCbs sc.writeRes st.outgoing_messages 0 st.callbacks hwf.1
    have hdf := drainGoFires sc.writeRes st.outgoing_messages 0 st.callbacks hwf.1
    cases hread : sc.read with
    | err r openAfter =>
      by_cases hno : r = Result.ReadPipeNoData ∧ openAfter = true
      · simp only [hno, if_true, ite_true]
        refine ⟨⟨hdc.1, ?_⟩, le_refl _, hdf.1, ?_, ?_⟩
        · intro s hs
          exact hwf.2 s (hdc.2 s hs)
        · intro s hs
          exact hdf.2 s hs
        · intro s hs
          exact Or.inl (hdc.2 s hs)
      · simp only [hno, if_false, ite_false]
        have hdd := drainDispatchSpec sc.writeRes st.outgoing_messages st.callbacks hwf.1 r {}
        refine ⟨⟨hdd.1, fun s hs => hwf.2 s (hdd.2.1 s hs)⟩, le_refl _, hdd.2.2.1, ?_, ?_⟩
        · intro s hs
          exact hdd.2.2.2 s hs
        · intro s hs
          exact Or.inl (hdd.2.1 s hs)
    | ok m =>
      have hdd := drainDispatchSpec sc.writeRes st.outgoing_messages st.callbacks hwf.1
        Result.Ok m
      refine ⟨⟨hdd.1, fun s hs => hwf.2 s (hdd.2.1 s hs)⟩, le_refl _, hdd.2.2.1, ?_, ?_⟩
      · intro s hs
        exact hdd.2.2.2 s hs
      · intro s hs
        exact Or.inl (hdd.2.1 s hs)

theorem runLoopSpec (supply : Nat → String) (hinj : ∀ i j, supply i = supply j → i = j) :
    ∀ (scripts : List IterScript) (st : ClientState), WFState supply st →
      WFState supply (runLoop supply scripts st).1
      ∧ st.ctr ≤ (runLoop supply scripts st).1.ctr
      ∧ ((runLoop supply scripts st).2.1.map Prod.fst).Nodup
      ∧ (∀ s ∈ (runLoop supply scripts st).2.1.map Prod.fst,
          (s ∈ st.callbacks ∨ ∃ i, st.ctr ≤ i ∧ i < (runLoop supply scripts st).1.ctr ∧ supply i = s)
          ∧ s ∉ (runLoop supply scripts st).1.callbacks)
      ∧ (∀ s ∈ (runLoop supply scripts st).1.callbacks,
          s ∈ st.callbacks ∨ ∃ i, st.ctr ≤ i ∧ i < (runLoop supply scripts st).1.ctr ∧ supply i = s) := by
  intro scripts
  induction scripts with
  | nil =>
    intro st hwf
    exact ⟨hwf, le_refl _, by simp [runLoop], by simp [runLoop], fun s hs => Or.inl hs⟩
  | cons sc rest ih =>
    intro st hwf
    have hit := runIterSpec supply hinj sc st hwf
    have hrec := ih (runIter supply sc st).st hit.1
    have hfreshNe : ∀ s, s ∈ st.callbacks → ∀ i, st.ctr ≤ i → supply i ≠ s := by
      intro s hs i hi hie
      obtain ⟨j, hj, hje⟩ := hwf.2 s hs
      have := hinj i j (hie.trans hje.symm)
      omega
    have hg1 : (runLoop supply (sc :: rest) st).1
        = (runLoop supply rest (runIter supply sc st).st).1 := rfl
    have hg2 : (runLoop supply (sc :: rest) st).2.1
        = (runIter supply sc st).fires ++ (runLoop supply rest (runIter supply sc st).st).2.1 := rfl
    rw [hg1, hg2]
    refine ⟨hrec.1, le_trans hit.2.1 hrec.2.1, ?_, ?_, ?_⟩
    · rw [List.map_append]
      refine List.Nodup.append hit.2.2.1 hrec.2.2.1 ?_
      intro s hs1 hs2
      obtain ⟨hsc, hsnc⟩ := hit.2.2.2.1 s hs1
      obtain ⟨horig, _⟩ := hrec.2.2.2.1 s hs2
      rcases horig with h | ⟨i, hi1, hi2, hie⟩
      · exact hsnc h
      · exact hfreshNe s hsc i (le_trans hit.2.1 hi1) hie
    · intro s hs
      rw [List.map_append, List.mem_append] at hs
      rcases hs with hs | hs
      · obtain ⟨hsc, hsnc⟩ := hit.2.2.2.1 s hs
        refine ⟨Or.inl hsc, ?_⟩
        intro hfin
        rcases hrec.2.2.2.2 s hfin with h | ⟨i, hi1, hi2, hie⟩
        · exact hsnc h
        · exact hfreshNe s hsc i (le_trans hit.2.1 hi1) hie
      · obtain ⟨horig, hnfin⟩ := hrec.2.2.2.1 s hs
        refine ⟨?_, hnfin⟩
        rcases horig with h | ⟨i, hi1, hi2, hie⟩
        · rcases hit.2.2.2.2 s h with h2 | ⟨i, hi1, hi2, hie⟩
          · exact Or.inl h2
          · exact Or.inr ⟨i, hi1, lt_of_lt_of_le hi2 hrec.2.1, hie⟩
        · exact Or.inr ⟨i, le_trans hit.2.1 hi1, hi2, hie⟩
    · intro s hs
      rcases hrec.2.2.2.2 s hs with h | ⟨i, hi1, hi2, hie⟩
      · rcases hit.2.2.2.2 s h with h2 | ⟨i, hi1, hi2, hie⟩
        · exact Or.inl h2
        · exact Or.inr ⟨i, hi1, lt_of_lt_of_le hi2 hrec.2.1, hie⟩
      · exact Or.inr ⟨i, le_trans hit.2.1 hi1, hi2, hie⟩

theorem submitStep (supply : Nat → String) (st : ClientState) (sub : Submission) :
    (submit supply st sub).ctr = st.ctr + 1
    ∧ (submit supply st sub).callbacks = registerCallback st.callbacks (supply st.ctr)
    ∧ (submit supply st sub).outgoing_messages.map IpcMessage.nonce
        = st.outgoing_messages.map IpcMessage.nonce ++ [supply st.ctr] := by
  cases sub <;> simp [submit, UpdateActivity, ClearActivity]

theorem submitWF (supply : Nat → String) (hinj : ∀ i j, supply i = supply j → i = j)
    (st : ClientState) (hwf : WFState supply st) (sub : Submission) :
    WFState supply (submit supply st sub) := by
  have hf := freshNotMem supply hinj st hwf
  obtain ⟨h1, h2, _⟩ := submitStep supply st sub
  constructor
  · rw [h2]
    unfold registerCallback
    rw [if_neg hf]
    exact List.nodup_cons.mpr ⟨hf, hwf.1⟩
  · intro s hs
    rw [h2] at hs
    unfold registerCallback at hs
    rw [if_neg hf] at hs
    rw [h1]
    rcases List.mem_cons.mp hs with rfl | hs2
    · exact ⟨st.ctr, by omega, rfl⟩
    · obtain ⟨i, hi, hie⟩ := hwf.2 s hs2
      exact ⟨i, by omega, hie⟩

theorem submitCbsMem (supply : Nat → String) (st : ClientState) (sub : Submission) (s : String)
    (hs : s ∈ st.callbacks ∨ s = supply st.ctr) : s ∈ (submit supply st sub).callbacks := by
  obtain ⟨_, h2, _⟩ := submitStep supply st sub
  rw [h2]
  unfold registerCallback
  by_cases hm : supply st.ctr ∈ st.callbacks
  · rw [if_pos hm]
    rcases hs with h | rfl
    · exact h
    · exact hm
  · rw [if_neg hm]
    rcases hs with h | rfl
    · exact List.mem_cons_of_mem _ h
    · exact List.mem_cons_self _ _

theorem submitAllWF (supply : Nat → String) (hinj : ∀ i j, supply i = supply j → i = j) :
    ∀ (subs : List Submission) (st : ClientState), WFState supply st →
      WFState supply (submitAll supply subs st) := by
  intro subs
  induction subs with
  | nil => intro st hwf; exact hwf
  | cons sub rest ih =>
    intro st hwf
    exact ih (submit supply st sub) (submitWF supply hinj st hwf sub)

theorem submitAllSpec (supply : Nat → String) :
    ∀ (subs : List Submission) (st : ClientState),
      (submitAll supply subs st).ctr = st.ctr + subs.length
      ∧ (submitAll supply subs st).outgoing_messages.map IpcMessage.nonce
          = st.outgoing_messages.map IpcMessage.nonce
            ++ (List.range subs.length).map (fun k => supply (st.ctr + k))
      ∧ (∀ s, (s ∈ st.callbacks ∨ ∃ k, k < subs.length ∧ s = supply (st.ctr + k))
          → s ∈ (submitAll supply subs st).callbacks) := by
  intro subs
  induction subs with
  | nil =>
    intro st
    refine ⟨by simp [submitAll], by simp [submitAll], ?_⟩
    intro s hs
    rcases hs with h | ⟨k, hk, _⟩
    · exact h
    · simp at hk
  | cons sub rest ih =>
    intro st
    have hstep := submitStep supply st sub
    have hsa : submitAll supply (sub :: rest) st = submitAll supply rest (submit supply st sub) := rfl
    obtain ⟨ih1, ih2, ih3⟩ := ih (submit supply st sub)
    rw [hsa]
    refine ⟨?_, ?_, ?_⟩
    · rw [ih1, hstep.1]
      simp
      omega
    · rw [ih2, hstep.2.2, hstep.1, List.append_assoc]
      simp only [List.length_cons]
      congr 1
      have hfun : ((fun k => supply (st.ctr + k)) ∘ Nat.succ) = (fun k => supply (st.ctr + 1 + k)) := by
        funext k
        simp only [Function.comp]
        congr 1
        omega
      rw [List.range_succ_eq_map, List.map_cons, List.map_map, hfun]
      simp
    · intro s hs
      apply ih3
      rcases hs with h | ⟨k, hk, rfl⟩
      · exact Or.inl (submitCbsMem supply st sub s (Or.inl h))
      · match k, hk with
        | 0, _ =>
          exact Or.inl (submitCbsMem supply st sub _ (Or.inr (by simp)))
        | k + 1, hk =>
          refine Or.inr ⟨k, by simpa using hk, ?_⟩
          rw [hstep.1]
          congr 1
          omega

/-! ## Claim theorems -/

/-- Claim C1, counterexample: a handshake whose reply read fails is "an
outcome of the handshake other than success", yet `Connect` returns
`ReadPipeFailed`, not `HandshakeFailed`, contradicting the claim as
stated. -/
theorem C1_counterexample :
    (Connect 0 { readResult := Result.ReadPipeFailed }).result = Result.ReadPipeFailed
    ∧ Result.ReadPipeFailed ≠ Result.HandshakeFailed := by
  constructor
  · rfl
  · decide

/-- Claim C1, amended: with the transport open and the handshake write
successful, when the reply read succeeds `Connect` returns success
exactly when the reply's opCode is 1, and on success raises exactly one
`Connected` event; a successful read with any other opCode makes
`Connect` return `HandshakeFailed` with no event; a failed read makes
`Connect` return that read failure (not `HandshakeFailed`), with no
event. -/
theorem C1_handshake (cid : Nat) (p : ConnectScript)
    (hopen : p.openResult = Result.Ok) (hwrite : p.writeResult = Result.Ok) :
    (p.readResult = Result.Ok →
      ((Connect cid p).result = Result.Ok ↔ p.readMsg.op_code = 1)
      ∧ (p.readMsg.op_code = 1 → (Connect cid p).events = [Event.Connected])
      ∧ (p.readMsg.op_code ≠ 1 →
          (Connect cid p).result = Result.HandshakeFailed ∧ (Connect cid p).events = []))
    ∧ (p.readResult ≠ Result.Ok →
      (Connect cid p).result = p.readResult ∧ (Connect cid p).events = []) := by
  unfold Connect
  rw [hopen, hwrite]
  by_cases hr : p.readResult = Result.Ok
  · by_cases hop : p.readMsg.op_code = 1 <;> simp [hr, hop]
  · simp [hr]

/-- Witness for C1_handshake at the default script (all results `Ok`,
reply opCode 0). -/
theorem C1_handshake_witness :
    (({} : ConnectScript).readResult = Result.Ok →
      ((Connect 7 {}).result = Result.Ok ↔ ({} : ConnectScript).readMsg.op_code = 1)
      ∧ (({} : ConnectScript).readMsg.op_code = 1 → (Connect 7 {}).events = [Event.Connected])
      ∧ (({} : ConnectScript).readMsg.op_code ≠ 1 →
          (Connect 7 {}).result = Result.HandshakeFailed ∧ (Connect 7 {}).events = []))
    ∧ (({} : ConnectScript).readResult ≠ Result.Ok →
      (Connect 7 {}).result = ({} : ConnectScript).readResult ∧ (Connect 7 {}).events = []) :=
  C1_handshake 7 {} rfl rfl

/-- Claim C3: decoding the frame produced by encoding any opCode/payload
pair (4-byte little-endian opCode, 4-byte little-endian length, payload
bytes) yields back exactly the same opCode and payload, consuming the
whole frame. -/
theorem C3_frame_roundtrip (op : Nat) (payload : List Nat)
    (hop : op < 4294967296) (hlen : payload.length < 4294967296) :
    pipeRead false (encodeFrame op payload) = (Result.Ok, op, payload, []) := by
  have h1 : readFileN 4 (toLE32 op ++ (toLE32 payload.length ++ payload))
      = (Result.Ok, toLE32 op, toLE32 payload.length ++ payload) :=
    readFileN_prefix 4 (toLE32 op) _ rfl
  have h2 : readFileN 4 (toLE32 payload.length ++ payload)
      = (Result.Ok, toLE32 payload.length, payload) :=
    readFileN_prefix 4 (toLE32 payload.length) _ rfl
  have h3 : readFileN (fromLE32 (toLE32 payload.length)) payload
      = (Result.Ok, payload, []) := by
    rw [fromLE32_toLE32 _ hlen]
    unfold readFileN
    rw [if_pos (le_refl _)]
    rw [List.take_length, List.drop_length]
  unfold pipeRead
  simp only [readBytes_false]
  rw [show encodeFrame op payload = toLE32 op ++ (toLE32 payload.length ++ payload) from by
    simp [encodeFrame]]
  rw [h1]
  simp only [h2, h3]
  rw [fromLE32_toLE32 _ hop]

/-- Witness for C3_frame_roundtrip at a concrete frame. -/
theorem C3_frame_roundtrip_witness :
    pipeRead false (encodeFrame 1 [72, 105]) = (Result.Ok, 1, [72, 105], []) :=
  C3_frame_roundtrip 1 [72, 105] (by decide) (by decide)

/-- Claim C6, counterexample: a peek-mode frame read on a stream holding
only the 4 opCode bytes sees the transport report zero available bytes at
the second segment: it returns the no-data outcome, but the 4 opCode
bytes have been consumed - the pending byte stream (now empty) is not
left as it was before the call. -/
theorem C6_counterexample :
    pipeRead true [1, 0, 0, 0] = (Result.ReadPipeNoData, 0, [], [])
    ∧ ([] : List Nat) ≠ [1, 0, 0, 0] := by
  constructor
  · rfl
  · decide

/-- Claim C6, amended: when the transport reports zero available bytes at
the first peek (empty stream), the peek-mode read returns the
distinguished no-data outcome without consuming anything, leaving the
stream exactly as it was; but when the data runs out between segments
(here: after the 4 opCode bytes), the read still returns the no-data
outcome while the header bytes already read have been consumed. -/
theorem C6_peek_no_data (s : List Nat) (h : s.length = 4) :
    pipeRead true [] = (Result.ReadPipeNoData, 0, [], [])
    ∧ pipeRead true s = (Result.ReadPipeNoData, 0, [], []) := by
  constructor
  · rfl
  · match s, h with
    | [a, b, c, d], _ => rfl

/-- Witness for C6_peek_no_data at a concrete 4-byte stream. -/
theorem C6_peek_no_data_witness :
    pipeRead true [] = (Result.ReadPipeNoData, 0, [], [])
    ∧ pipeRead true [1, 0, 0, 0] = (Result.ReadPipeNoData, 0, [], []) :=
  C6_peek_no_data [1, 0, 0, 0] rfl

/-- Claim C8: serializing an Activity with all optional fields unset
(empty name, zero client id, default type, empty details/state, zero
timestamps, no party, empty assets, no buttons) produces a JSON object
with only the mandatory type member plus always-present empty timestamps
and assets objects. -/
theorem C8_default_activity :
    serializeActivity
      { client_id := 0, name := "", type := ActivityType.Playing, details := "", state := "",
        timestamps := { start := 0, stop := 0 }, party := none,
        assets := { large_image := "", large_text := "", small_image := "", small_text := "" },
        buttons := [] }
    = "\x7b\"type\":0,\"timestamps\":\x7b\x7d,\"assets\":\x7b\x7d\x7d" := by
  rfl

/-- Claim C9, counterexample: the construction order `SetMaxSize(5)` then
`SetCurrentSize(6)` passes both assertions (SetCurrentSize only checks
nonnegativity), producing a party whose current size 6 exceeds its max
size 5 - the claim's "every construction order is rejected" fails. -/
theorem C9_counterexample :
    (Party.SetMaxSize {} 5).bind (fun p => Party.SetCurrentSize p 6)
      = some { id := "", current_size := 6, max_size := 5 } := by
  rfl

/-- Claim C9, amended: constructing a party with current size 6 and max
size 5 is rejected when the current size is set first (the SetMaxSize
assertion fails), but the reverse order passes validation; a Button whose
label is 40 characters long is rejected in every case. -/
theorem C9_validation (s : String) (h : s.length = 40) :
    ((Party.SetCurrentSize {} 6).bind (fun p => Party.SetMaxSize p 5) = none)
    ∧ Button.SetLabel {} s = none
    ∧ (∀ u, Button.construct s u = none) := by
  refine ⟨rfl, ?_, ?_⟩
  · simp [Button.SetLabel, h]
  · intro u
    simp [Button.construct, Button.SetLabel, h]

/-- Witness for C9_validation at a concrete 40-character label. -/
theorem C9_validation_witness :
    ((Party.SetCurrentSize {} 6).bind (fun p => Party.SetMaxSize p 5) = none)
    ∧ Button.SetLabel {} "0123456789012345678901234567890123456789" = none
    ∧ (∀ u, Button.construct "0123456789012345678901234567890123456789" u = none) :=
  C9_validation "0123456789012345678901234567890123456789" (by rfl)

/-- Claim C7, counterexample: string values are not escaped - rendering
the string value `a"b` yields the five characters `"a"b"`, which differ
from the standard-JSON-escaped rendering the claim asserts (and are not a
valid JSON string literal). -/
theorem C7_counterexample :
    (jvalToJson (JVal.str "a\"b") JsonWriter.init).s = "\"a\"b\""
    ∧ (jvalToJson (JVal.str "a\"b") JsonWriter.init).s ≠ "\"" ++ specEscapeString "a\"b" ++ "\"" := by
  constructor
  · rfl
  · decide

/-- Claim C7, amended: string values are written verbatim between quotes
with no escaping, so the payload is guaranteed to be valid JSON only for
strings free of quotes, backslashes and control characters - for those
the output coincides with the standard-JSON-escaped form; integers are
rendered as JSON numbers; the client id is rendered as a JSON string in
the handshake frame only (in an activity it is a JSON number); optional
fields are omitted entirely rather than emitted as null. -/
theorem C7_serialization (s : String) (n : Int) (cid : Nat)
    (hs : ∀ c ∈ s.data, c ≠ '"' ∧ c ≠ '\\' ∧ 32 ≤ c.toNat) :
    (jvalToJson (JVal.str s) JsonWriter.init).s = "\"" ++ specEscapeString s ++ "\""
    ∧ (jvalToJson (JVal.int n) JsonWriter.init).s = toString n
    ∧ handshakePayload cid = "\x7b\"v\":1,\"client_id\":\"" ++ toString cid ++ "\"\x7d"
    ∧ serializeActivity
        { client_id := cid + 1, name := "", type := ActivityType.Playing, details := "",
          state := "", timestamps := {}, party := none, assets := {}, buttons := [] }
      = "\x7b\"client_id\":" ++ toString (cid + 1) ++ ",\"type\":0,\"timestamps\":\x7b\x7d,\"assets\":\x7b\x7d\x7d" := by
  have he := specEscapeStringId s hs
  refine ⟨?_, ?_, ?_, ?_⟩
  · apply stringDataEq
    simp [jvalToJson, writeRaw, JsonWriter.init, String.data_append, he]
  · apply stringDataEq
    simp [jvalToJson, writeRaw, JsonWriter.init, String.data_append]
  · apply stringDataEq
    simp [handshakePayload, put, beginObject, endObject, writeRaw, jvalToJson,
      JsonWriter.init, String.data_append]
    rfl
  · apply stringDataEq
    simp [serializeActivity, Activity.ToJson, Timestamps.ToJson, Assets.ToJson, put,
      beginObject, endObject, writeRaw, jvalToJson, JsonWriter.init, String.data_append,
      ActivityType.toInt]
    rfl

/-- Witness for C7_serialization at concrete inputs. -/
theorem C7_serialization_witness :
    (jvalToJson (JVal.str "hello") JsonWriter.init).s = "\"" ++ specEscapeString "hello" ++ "\""
    ∧ (jvalToJson (JVal.int (-3)) JsonWriter.init).s = toString (-3 : Int)
    ∧ handshakePayload 9 = "\x7b\"v\":1,\"client_id\":\"" ++ toString (9 : Nat) ++ "\"\x7d"
    ∧ serializeActivity
        { client_id := 9 + 1, name := "", type := ActivityType.Playing, details := "",
          state := "", timestamps := {}, party := none, assets := {}, buttons := [] }
      = "\x7b\"client_id\":" ++ toString (9 + 1 : Nat) ++ ",\"type\":0,\"timestamps\":\x7b\x7d,\"assets\":\x7b\x7d\x7d" :=
  C7_serialization "hello" (-3) 9 (by decide)

/-- Claim C10: every token produced by the token generator consists only
of lowercase hex digits and hyphens, is 36 characters long with '4' as
its 15th character (index 14), and embedding it in a payload as
"nonce":"token" and extracting with the reader's pattern recovers
exactly the original token. -/
theorem C10_nonce_roundtrip (d : Nat → Fin 16) :
    (GenerateUUIDv4 d).length = 36
    ∧ (GenerateUUIDv4 d).data[14]? = some '4'
    ∧ (∀ c ∈ (GenerateUUIDv4 d).data, ('0' ≤ c ∧ c ≤ '9') ∨ ('a' ≤ c ∧ c ≤ 'f') ∨ c = '-')
    ∧ extractNonce ("\"nonce\":\"" ++ GenerateUUIDv4 d ++ "\"") = some (GenerateUUIDv4 d) := by
  refine ⟨rfl, rfl, ?_, ?_⟩
  · intro c hc
    exact uuidCharsClass d c hc
  · have hne : uuidChars d ≠ [] := by
      intro h
      have h36 : (uuidChars d).length = 36 := rfl
      rw [h] at h36
      simp at h36
    have hnc : ∀ c ∈ uuidChars d, isNonceChar c = true :=
      fun c hc => isNonceCharOfClass c (uuidCharsClass d c hc)
    have hs := searchNonceExact (uuidChars d) hne hnc
    have hdata : ("\"nonce\":\"" ++ GenerateUUIDv4 d ++ "\"").data
        = noncePattern ++ (uuidChars d ++ ['"']) := by
      simp [String.data_append, GenerateUUIDv4, noncePattern, List.append_assoc]
    unfold extractNonce
    rw [hdata, hs]
    rfl

/-- Claim C2: over any run of the engine loop from a well-formed state
with fresh (pairwise-distinct) tokens, no continuation ever fires twice
(the fired nonces are pairwise distinct) and a fired entry is removed and
never retained; a read message whose nonce matches a pending token fires
exactly that continuation once with the read outcome and removes the
entry; a message with an unknown (or absent, hence unknown) nonce invokes
no continuation; and a failed queued write fires the entry's pending
continuation with the failure outcome and removes it. -/
theorem C2_exactly_once (supply : Nat → String) (scripts : List IterScript) (st : ClientState)
    (hinj : ∀ i j, supply i = supply j → i = j) (hwf : WFState supply st) :
    ((runLoop supply scripts st).2.1.map Prod.fst).Nodup
    ∧ (∀ s ∈ (runLoop supply scripts st).2.1.map Prod.fst,
        s ∉ (runLoop supply scripts st).1.callbacks)
    ∧ (∀ cbs r m, m.nonce ∈ cbs →
        (dispatch cbs r m).2 = [(m.nonce, r)] ∧ (dispatch cbs r m).1 = cbs.erase m.nonce)
    ∧ (∀ cbs r m, m.nonce ∉ cbs → dispatch cbs r m = (cbs, []))
    ∧ (∀ w cbs m q, w 0 ≠ Result.Ok → m.nonce ∈ cbs → cbs.Nodup →
        (m.nonce, w 0) ∈ (drainGo w 0 cbs (m :: q)).2.2
        ∧ m.nonce ∉ (drainGo w 0 cbs (m :: q)).1) := by
  have h := runLoopSpec supply hinj scripts st hwf
  refine ⟨h.2.2.1, fun s hs => (h.2.2.2.1 s hs).2, ?_, ?_, ?_⟩
  · intro cbs r m hm
    unfold dispatch
    rw [if_pos hm]
    exact ⟨rfl, rfl⟩
  · intro cbs r m hm
    unfold dispatch
    rw [if_neg hm]
  · intro w cbs m q hw hm hnd
    unfold drainGo
    simp only [hw, hm, if_false, if_true, ite_false, ite_true]
    constructor
    · exact List.mem_cons_self _ _
    · intro hfin
      have hsub := (drainGoCbs w q (0 + 1) (cbs.erase m.nonce) (hnd.erase m.nonce)).2
      exact (fun hx => (hnd.mem_erase_iff.mp hx).1 rfl) (hsub _ hfin)

/-- Witness for C2_exactly_once at a concrete injective supply, one
default loop iteration and the initial client state. -/
theorem C2_exactly_once_witness :
    ((runLoop (fun n => String.mk (List.replicate (n + 1) 'a')) [{}] {}).2.1.map Prod.fst).Nodup
    ∧ (∀ s ∈ (runLoop (fun n => String.mk (List.replicate (n + 1) 'a')) [{}] {}).2.1.map Prod.fst,
        s ∉ (runLoop (fun n => String.mk (List.replicate (n + 1) 'a')) [{}] {}).1.callbacks)
    ∧ (∀ cbs r m, m.nonce ∈ cbs →
        (dispatch cbs r m).2 = [(m.nonce, r)] ∧ (dispatch cbs r m).1 = cbs.erase m.nonce)
    ∧ (∀ cbs r m, m.nonce ∉ cbs → dispatch cbs r m = (cbs, []))
    ∧ (∀ w cbs m q, w 0 ≠ Result.Ok → m.nonce ∈ cbs → cbs.Nodup →
        (m.nonce, w 0) ∈ (drainGo w 0 cbs (m :: q)).2.2
        ∧ m.nonce ∉ (drainGo w 0 cbs (m :: q)).1) :=
  C2_exactly_once (fun n => String.mk (List.replicate (n + 1) 'a')) [{}] {}
    (fun i j h => by
      have h2 : i + 1 = j + 1 := by
        have h3 := congrArg (fun t : String => t.data.length) h
        simpa using h3
      omega)
    ⟨List.nodup_nil, by simp⟩

/-- Claim C4: after any sequence of submissions into an empty queue, the
next drain attempts each queued entry exactly once in submission (FIFO)
order (the write attempts are exactly the queue); the entries carry the
pairwise-distinct nonces drawn from the supply in submission order; and a
write failure for entry `j` fires and removes that entry's pending call
with the failure outcome while every other entry is still attempted in
the same pass. -/
theorem C4_queue_drain (supply : Nat → String) (subs : List Submission) (st : ClientState)
    (w : Nat → Result) (stN : ClientState)
    (hinj : ∀ i j, supply i = supply j → i = j) (hwf : WFState supply st)
    (hq : st.outgoing_messages = []) (hstN : stN = submitAll supply subs st) :
    (drainGo w 0 stN.callbacks stN.outgoing_messages).2.1 = stN.outgoing_messages
    ∧ stN.outgoing_messages.length = subs.length
    ∧ (stN.outgoing_messages.map IpcMessage.nonce).Nodup
    ∧ (∀ j, (hj : j < stN.outgoing_messages.length) →
        stN.outgoing_messages[j].nonce = supply (st.ctr + j)
        ∧ (w j ≠ Result.Ok →
            (stN.outgoing_messages[j].nonce, w j)
              ∈ (drainGo w 0 stN.callbacks stN.outgoing_messages).2.2
            ∧ stN.outgoing_messages[j].nonce ∉ (drainGo w 0 stN.callbacks stN.outgoing_messages).1)) := by
  subst hstN
  obtain ⟨hctr, hmap, hcbs⟩ := submitAllSpec supply subs st
  rw [hq] at hmap
  simp only [List.map_nil, List.nil_append] at hmap
  have hwfN := submitAllWF supply hinj subs st hwf
  have hlen : (submitAll supply subs st).outgoing_messages.length = subs.length := by
    have := congrArg List.length hmap
    simpa using this
  have hnodup : ((submitAll supply subs st).outgoing_messages.map IpcMessage.nonce).Nodup := by
    rw [hmap]
    refine List.Nodup.map ?_ (List.nodup_range _)
    intro k1 k2 hk
    have := hinj _ _ hk
    omega
  have hnth : ∀ j, (hj : j < (submitAll supply subs st).outgoing_messages.length) →
      (submitAll supply subs st).outgoing_messages[j].nonce = supply (st.ctr + j) := by
    intro j hj
    have hj2 : j < subs.length := by omega
    have hq1 : ((submitAll supply subs st).outgoing_messages.map IpcMessage.nonce)[j]?
        = some (supply (st.ctr + j)) := by
      rw [hmap]
      simp [List.getElem?_map, List.getElem?_range, hj2]
    rw [List.getElem?_map, List.getElem?_eq_getElem hj] at hq1
    simpa using hq1
  have hmem : ∀ m ∈ (submitAll supply subs st).outgoing_messages,
      m.nonce ∈ (submitAll supply subs st).callbacks := by
    intro m hm
    have : m.nonce ∈ (submitAll supply subs st).outgoing_messages.map IpcMessage.nonce :=
      List.mem_map_of_mem _ hm
    rw [hmap] at this
    obtain ⟨k, hk, hke⟩ := List.mem_map.mp this
    exact hcbs m.nonce (Or.inr ⟨k, by simpa using hk, hke.symm⟩)
  refine ⟨drainGoWrites w _ 0 _, hlen, hnodup, ?_⟩
  intro j hj
  refine ⟨hnth j hj, ?_⟩
  intro hwj
  have hff := drainGoFailFires w (submitAll supply subs st).outgoing_messages 0
    (submitAll supply subs st).callbacks hnodup hwfN.1 hmem j hj (by simpa using hwj)
  simpa using hff

/-- Witness for C4_queue_drain: two clear-activity submissions into the
initial state, all writes succeeding. -/
theorem C4_queue_drain_witness :
    (drainGo (fun _ => Result.Ok) 0
        (submitAll (fun n => String.mk (List.replicate (n + 1) 'a')) [Submission.clear, Submission.clear] {}).callbacks
        (submitAll (fun n => String.mk (List.replicate (n + 1) 'a')) [Submission.clear, Submission.clear] {}).outgoing_messages).2.1
      = (submitAll (fun n => String.mk (List.replicate (n + 1) 'a')) [Submission.clear, Submission.clear] {}).outgoing_messages
    ∧ (submitAll (fun n => String.mk (List.replicate (n + 1) 'a')) [Submission.clear, Submission.clear] {}).outgoing_messages.length
      = [Submission.clear, Submission.clear].length
    ∧ ((submitAll (fun n => String.mk (List.replicate (n + 1) 'a')) [Submission.clear, Submission.clear] {}).outgoing_messages.map IpcMessage.nonce).Nodup
    ∧ (∀ j, (hj : j < (submitAll (fun n => String.mk (List.replicate (n + 1) 'a')) [Submission.clear, Submission.clear] {}).outgoing_messages.length) →
        (submitAll (fun n => String.mk (List.replicate (n + 1) 'a')) [Submission.clear, Submission.clear] {}).outgoing_messages[j].nonce
          = (fun n => String.mk (List.replicate (n + 1) 'a')) (({} : ClientState).ctr + j)
        ∧ ((fun _ => Result.Ok) j ≠ Result.Ok →
            ((submitAll (fun n => String.mk (List.replicate (n + 1) 'a')) [Submission.clear, Submission.clear] {}).outgoing_messages[j].nonce, (fun _ => Result.Ok) j)
              ∈ (drainGo (fun _ => Result.Ok) 0
                  (submitAll (fun n => String.mk (List.replicate (n + 1) 'a')) [Submission.clear, Submission.clear] {}).callbacks
                  (submitAll (fun n => String.mk (List.replicate (n + 1) 'a')) [Submission.clear, Submission.clear] {}).outgoing_messages).2.2
            ∧ (submitAll (fun n => String.mk (List.replicate (n + 1) 'a')) [Submission.clear, Submission.clear] {}).outgoing_messages[j].nonce
              ∉ (drainGo (fun _ => Result.Ok) 0
                  (submitAll (fun n => String.mk (List.replicate (n + 1) 'a')) [Submission.clear, Submission.clear] {}).callbacks
                  (submitAll (fun n => String.mk (List.replicate (n + 1) 'a')) [Submission.clear, Submission.clear] {}).outgoing_messages).1)) :=
  C4_queue_drain (fun n => String.mk (List.replicate (n + 1) 'a'))
    [Submission.clear, Submission.clear] {} (fun _ => Result.Ok) _
    (fun i j h => by
      have h2 : i + 1 = j + 1 := by
        have h3 := congrArg (fun t : String => t.data.length) h
        simpa using h3
      omega)
    ⟨List.nodup_nil, by simp⟩ rfl rfl

/-- Claim C5: when a loop iteration's read fails hard (`ReadPipeFailed`),
the iteration raises `Disconnected` (the pipe is closed); when a later
iteration finds the pipe closed and reconnects successfully, it raises
`Connected` and automatically resubmits the retained ActivitySnapshot
exactly once (the queue afterwards holds exactly one new entry carrying
that activity under a fresh nonce); the snapshot is overwritten by every
`UpdateActivity` and cleared by `ClearActivity`; and when the snapshot is
cleared, a successful reconnect resubmits nothing (the state is
unchanged). -/
theorem C5_reconnect_resubmission (supply : Nat → String) (st : ClientState) (a : Activity)
    (sc1 sc2 : IterScript)
    (hauto : st.settings.auto_reconnect = true)
    (hlast : st.last_activity = some a)
    (h1open : sc1.isOpen = true)
    (h1read : sc1.read = ReadScript.err Result.ReadPipeFailed false)
    (h2open : sc2.isOpen = false)
    (h2a : sc2.connect.openResult = Result.Ok)
    (h2b : sc2.connect.writeResult = Result.Ok)
    (h2c : sc2.connect.readResult = Result.Ok)
    (h2d : sc2.connect.readMsg.op_code = 1) :
    (runIter supply sc1 st).events = [Event.Disconnected]
    ∧ (runIter supply sc2 (runIter supply sc1 st).st).events = [Event.Connected]
    ∧ (runIter supply sc2 (runIter supply sc1 st).st).st.outgoing_messages
        = [{ op_code := 1, message := setActivityPayload st.pid a (supply st.ctr),
             nonce := supply st.ctr }]
    ∧ (runIter supply sc2 (runIter supply sc1 st).st).st.last_activity = some a
    ∧ (∀ st2 act, (UpdateActivity supply st2 act).last_activity = some act)
    ∧ (∀ st2, (ClearActivity supply st2).last_activity = none)
    ∧ (∀ st2 : ClientState, st2.settings.auto_reconnect = true → st2.last_activity = none →
        (runIter supply sc2 st2).st = st2
        ∧ (runIter supply sc2 st2).events = [Event.Connected]) := by
  have hcres : ∀ c, Connect c sc2.connect
      = { result := Result.Ok, events := [Event.Connected],
          written := [(0, handshakePayload c)] } := by
    intro c
    unfold Connect
    rw [h2a, h2b, h2c]
    simp [h2d]
  have ho1 : (runIter supply sc1 st).st.settings = st.settings
      ∧ (runIter supply sc1 st).st.last_activity = some a
      ∧ (runIter supply sc1 st).st.ctr = st.ctr
      ∧ (runIter supply sc1 st).st.pid = st.pid
      ∧ (runIter supply sc1 st).st.outgoing_messages = []
      ∧ (runIter supply sc1 st).events = [Event.Disconnected] := by
    unfold runIter
    rw [h1open, h1read]
    simp [dispatch, hlast]
  obtain ⟨hs1, hs2, hs3, hs4, hs6, hs7⟩ := ho1
  have hopen2 : ∀ st2 : ClientState, st2.settings.auto_reconnect = true →
      runIter supply sc2 st2
        = (match st2.last_activity with
          | some act =>
            { st := UpdateActivity supply st2 act, fires := [],
              events := [Event.Connected] }
          | none => { st := st2, fires := [], events := [Event.Connected] }) := by
    intro st2 h2auto
    unfold runIter
    rw [h2open]
    simp only [if_true, ite_true, h2auto, hcres]
  have key : runIter supply sc2 (runIter supply sc1 st).st
      = { st := UpdateActivity supply (runIter supply sc1 st).st a, fires := [],
          events := [Event.Connected] } := by
    rw [hopen2 (runIter supply sc1 st).st (by rw [hs1]; exact hauto), hs2]
  refine ⟨hs7, ?_, ?_, ?_, ?_, ?_, ?_⟩
  · rw [key]
  · rw [key]
    show (UpdateActivity supply (runIter supply sc1 st).st a).outgoing_messages = _
    simp [UpdateActivity, hs6, hs4, hs3]
  · rw [key]
    rfl
  · intro st2 act
    rfl
  · intro st2
    rfl
  · intro st2 h2auto h2last
    rw [hopen2 st2 h2auto, h2last]
    exact ⟨rfl, rfl⟩

/-- Witness for C5_reconnect_resubmission at concrete scripts and the
default activity. -/
theorem C5_reconnect_resubmission_witness :
    (runIter (fun n => String.mk (List.replicate (n + 1) 'a'))
        { isOpen := true, read := ReadScript.err Result.ReadPipeFailed false }
        { last_activity := some {} }).events = [Event.Disconnected]
    ∧ (runIter (fun n => String.mk (List.replicate (n + 1) 'a'))
        { isOpen := false, connect := { readMsg := { op_code := 1 } } }
        (runIter (fun n => String.mk (List.replicate (n + 1) 'a'))
          { isOpen := true, read := ReadScript.err Result.ReadPipeFailed false }
          { last_activity := some {} }).st).events = [Event.Connected]
    ∧ (runIter (fun n => String.mk (List.replicate (n + 1) 'a'))
        { isOpen := false, connect := { readMsg := { op_code := 1 } } }
        (runIter (fun n => String.mk (List.replicate (n + 1) 'a'))
          { isOpen := true, read := ReadScript.err Result.ReadPipeFailed false }
          { last_activity := some {} }).st).st.outgoing_messages
        = [{ op_code := 1,
             message := setActivityPayload 0 {} (String.mk (List.replicate 1 'a')),
             nonce := String.mk (List.replicate 1 'a') }]
    ∧ (runIter (fun n => String.mk (List.replicate (n + 1) 'a'))
        { isOpen := false, connect := { readMsg := { op_code := 1 } } }
        (runIter (fun n => String.mk (List.replicate (n + 1) 'a'))
          { isOpen := true, read := ReadScript.err Result.ReadPipeFailed false }
          { last_activity := some {} }).st).st.last_activity = some {}
    ∧ (∀ st2 act, (UpdateActivity (fun n => String.mk (List.replicate (n + 1) 'a')) st2 act).last_activity = some act)
    ∧ (∀ st2, (ClearActivity (fun n => String.mk (List.replicate (n + 1) 'a')) st2).last_activity = none)
    ∧ (∀ st2 : ClientState, st2.settings.auto_reconnect = true → st2.last_activity = none →
        (runIter (fun n => String.mk (List.replicate (n + 1) 'a'))
          { isOpen := false, connect := { readMsg := { op_code := 1 } } } st2).st = st2
        ∧ (runIter (fun n => String.mk (List.replicate (n + 1) 'a'))
          { isOpen := false, connect := { readMsg := { op_code := 1 } } } st2).events
          = [Event.Connected]) :=
  C5_reconnect_resubmission (fun n => String.mk (List.replicate (n + 1) 'a'))
    { last_activity := some {} } {}
    { isOpen := true, read := ReadScript.err Result.ReadPipeFailed false }
    { isOpen := false, connect := { readMsg := { op_code := 1 } } }
    rfl rfl rfl rfl rfl rfl rfl rfl rfl

end DiscordRichPresence
